import Mathlib

/-!
# Verification of the execution engine of a RISC-V instruction-accurate simulator

This file gives a shallow embedding, in Lean 4, of the core execution engine of
an instruction-accurate RISC-V simulator (trap dispatch, load/store, the
store-conditional path, division/remainder, CSR instructions, the
load-reservation bookkeeping, the store-exception replay entry point, memory
peek, and the auxiliary 4-entry custom register file), together with theorems
settling the corresponding specification claims.

Machine words of width `w` are represented as natural numbers below `2 ^ w`;
signed interpretation is via two's complement (`toSigned` / `toUnsigned`).
The memory subsystem, the trigger engine, and the CSR register file proper are
external collaborators of the core; where their implementation is not part of
the sources they are modelled from the specification contract and marked so.
-/

namespace SwervISS

/-! ## Machine arithmetic over a register width `w` -/

/-- All-ones word of width `w` (the value of `~URV(0)`). -/
def wordMask (w : Nat) : Nat := 2 ^ w - 1

/-- Two's-complement (signed) interpretation of a word of width `w`. -/
def toSigned (w v : Nat) : Int :=
  if v < 2 ^ (w - 1) then (v : Int) else (v : Int) - 2 ^ w

/-- Truncation of an integer back to an unsigned word of width `w`. -/
def toUnsigned (w : Nat) (i : Int) : Nat := (i % (2 ^ w : Int)).toNat

/-- `n & ~1`: clear the least significant bit. -/
def clearBit0 (n : Nat) : Nat := 2 * (n / 2)

/-- `SRV(1) << (w-1)` interpreted as a signed value: the minimum signed word. -/
def minIntVal (w : Nat) : Int := -(2 ^ (w - 1))

theorem toUnsigned_lt (w : Nat) (i : Int) : toUnsigned w i < 2 ^ w := by
  unfold toUnsigned
  have hpos : (0 : Int) < 2 ^ w := by positivity
  have h := Int.emod_lt_of_pos i hpos
  have h0 := Int.emod_nonneg i (ne_of_gt hpos)
  have hc : ((2 ^ w : Nat) : Int) = (2 : Int) ^ w := by
    push_cast
    ring
  omega

theorem toUnsigned_toSigned (w v : Nat) (hv : v < 2 ^ w) :
    toUnsigned w (toSigned w v) = v := by
  unfold toUnsigned toSigned
  split
  · rw [Int.emod_eq_of_lt (by omega) (by exact_mod_cast hv)]
    simp
  · have h1 := Int.add_mul_emod_self_left (v : Int) (2 ^ w) (-1)
    have h2 : ((v : Int) + 2 ^ w * (-1)) = (v : Int) - 2 ^ w := by ring
    rw [h2] at h1
    rw [h1, Int.emod_eq_of_lt (by omega) (by exact_mod_cast hv)]
    simp

theorem toUnsigned_neg_one (w : Nat) (hw : 0 < w) :
    toUnsigned w (-1) = 2 ^ w - 1 := by
  unfold toUnsigned
  have hpos : (1 : Int) < 2 ^ w := by
    calc (1 : Int) < 2 ^ 1 := by norm_num
    _ ≤ 2 ^ w := by
      apply pow_le_pow_right₀ <;> omega
  have h1 := Int.add_mul_emod_self_left (-1 : Int) (2 ^ w) 1
  have h2 : ((-1 : Int) + 2 ^ w * 1) = 2 ^ w - 1 := by ring
  rw [h2] at h1
  rw [← h1, Int.emod_eq_of_lt (by omega) (by omega)]
  have hc : ((2 ^ w : Nat) : Int) = (2 : Int) ^ w := by
    push_cast
    ring
  omega

theorem toUnsigned_minInt (w : Nat) (hw : 0 < w) :
    toUnsigned w (minIntVal w) = 2 ^ (w - 1) := by
  unfold toUnsigned minIntVal
  have hsplit : (2 : Int) ^ w = 2 ^ (w - 1) * 2 := by
    rw [← pow_succ]
    congr 1
    omega
  have hpos : (0 : Int) < 2 ^ (w - 1) := by positivity
  have h1 := Int.add_mul_emod_self_left (-(2 ^ (w - 1)) : Int) (2 ^ w) 1
  have h2 : ((-(2 ^ (w - 1)) : Int) + 2 ^ w * 1) = 2 ^ w - 2 ^ (w - 1) := by ring
  rw [h2] at h1
  rw [← h1, Int.emod_eq_of_lt (by omega) (by omega)]
  have hcast : ((2 ^ (w - 1) : Nat) : Int) = (2 : Int) ^ (w - 1) := by
    push_cast
    ring
  omega

/-! ## Integer register file

The `IntRegs` class is not among the sources of this repository (only its
callers are), so it is modelled from the specification. -/

/-- Modelled from the spec: the integer register file (class `IntRegs`, not
under the sources): `read(i)` returns zero for `i = 0` else the stored word;
`write(i, v)` ignores `i = 0`, otherwise records the previous value and the
index of the most recent write and sets the new value. -/
structure IntRegs where
  regs : Nat → Nat
  lastWrittenReg : Int
  originalValue : Nat

def IntRegs.read (r : IntRegs) (i : Nat) : Nat :=
  if i = 0 then 0 else r.regs i

def IntRegs.write (r : IntRegs) (i v : Nat) : IntRegs :=
  if i = 0 then r
  else
    { regs := fun j => if j = i then v else r.regs j
      lastWrittenReg := (i : Int)
      originalValue := r.regs i }

theorem IntRegs.read_write_self (r : IntRegs) (i v : Nat) (h : i ≠ 0) :
    (r.write i v).read i = v := by
  simp [IntRegs.read, IntRegs.write, h]

theorem IntRegs.read_write_other (r : IntRegs) (i v j : Nat) (h : j ≠ i) :
    (r.write i v).read j = r.read j := by
  unfold IntRegs.write
  split
  · rfl
  · unfold IntRegs.read
    simp [h]

/-! ## Division and remainder (`Core::execDiv`, `execDivu`, `execRem`, `execRemu`)

Embedded from the sources.  `SRV` arithmetic is two's complement on `w`-bit
words; C++ signed division/remainder truncate toward zero (`Int.tdiv` /
`Int.tmod`). -/

/-- The quotient computed by `execDiv`: `-1` on division by zero; `MININT` on
`MININT / -1`; otherwise the truncated quotient. -/
def divResult (w : Nat) (a b : Int) : Int :=
  if b = 0 then -1
  else if a = minIntVal w ∧ b = -1 then a
  else Int.tdiv a b

/-- The remainder computed by `execRem`: the dividend on division by zero;
`0` on `MININT % -1`; otherwise the truncated remainder. -/
def remResult (w : Nat) (a b : Int) : Int :=
  if b = 0 then a
  else if a = minIntVal w ∧ b = -1 then 0
  else Int.tmod a b

/-- `Core::execDiv`. -/
def execDiv (w : Nat) (st : IntRegs) (rd rs1 rs2 : Nat) : IntRegs :=
  st.write rd
    (toUnsigned w (divResult w (toSigned w (st.read rs1)) (toSigned w (st.read rs2))))

/-- `Core::execDivu`: unsigned; divide-by-zero result is all-ones. -/
def execDivu (w : Nat) (st : IntRegs) (rd rs1 rs2 : Nat) : IntRegs :=
  st.write rd (if st.read rs2 = 0 then wordMask w else st.read rs1 / st.read rs2)

/-- `Core::execRem`. -/
def execRem (w : Nat) (st : IntRegs) (rd rs1 rs2 : Nat) : IntRegs :=
  st.write rd
    (toUnsigned w (remResult w (toSigned w (st.read rs1)) (toSigned w (st.read rs2))))

/-- `Core::execRemu`: unsigned; divide-by-zero remainder is the dividend. -/
def execRemu (w : Nat) (st : IntRegs) (rd rs1 rs2 : Nat) : IntRegs :=
  st.write rd (if st.read rs2 = 0 then st.read rs1 else st.read rs1 % st.read rs2)

/-- C3: signed DIV writes -1 (all-ones) on division by zero, MININT (unsigned
encoding `2^(w-1)`) on MININT / -1, and otherwise the truncated two's-complement
quotient; DIVU writes all-ones on division by zero; REM writes the dividend on
division by zero and 0 on MININT % -1; REMU writes the unchanged dividend on
division by zero. -/
theorem div_rem_boundary_cases (w : Nat) (st : IntRegs) (rd rs1 rs2 : Nat)
    (hw : 0 < w) (hrd : rd ≠ 0)
    (h1 : st.read rs1 < 2 ^ w) (h2 : st.read rs2 < 2 ^ w) :
    (toSigned w (st.read rs2) = 0 →
        (execDiv w st rd rs1 rs2).read rd = 2 ^ w - 1)
    ∧ (toSigned w (st.read rs1) = minIntVal w ∧ toSigned w (st.read rs2) = -1 →
        (execDiv w st rd rs1 rs2).read rd = 2 ^ (w - 1))
    ∧ (toSigned w (st.read rs2) ≠ 0 →
        ¬(toSigned w (st.read rs1) = minIntVal w ∧ toSigned w (st.read rs2) = -1) →
        (execDiv w st rd rs1 rs2).read rd
          = toUnsigned w (Int.tdiv (toSigned w (st.read rs1)) (toSigned w (st.read rs2))))
    ∧ (st.read rs2 = 0 → (execDivu w st rd rs1 rs2).read rd = 2 ^ w - 1)
    ∧ (toSigned w (st.read rs2) = 0 →
        (execRem w st rd rs1 rs2).read rd = st.read rs1)
    ∧ (toSigned w (st.read rs1) = minIntVal w ∧ toSigned w (st.read rs2) = -1 →
        (execRem w st rd rs1 rs2).read rd = 0)
    ∧ (st.read rs2 = 0 → (execRemu w st rd rs1 rs2).read rd = st.read rs1) := by
  refine ⟨?_, ?_, ?_, ?_, ?_, ?_, ?_⟩
  · intro hb
    rw [execDiv, IntRegs.read_write_self _ _ _ hrd, divResult, if_pos hb]
    exact toUnsigned_neg_one w hw
  · intro hab
    rw [execDiv, IntRegs.read_write_self _ _ _ hrd, divResult]
    rw [if_neg (by rw [hab.2]; norm_num), if_pos hab, hab.1]
    exact toUnsigned_minInt w hw
  · intro hb hab
    rw [execDiv, IntRegs.read_write_self _ _ _ hrd, divResult, if_neg hb, if_neg hab]
  · intro hb
    rw [execDivu, IntRegs.read_write_self _ _ _ hrd, if_pos hb]
    rfl
  · intro hb
    rw [execRem, IntRegs.read_write_self _ _ _ hrd, remResult, if_pos hb]
    exact toUnsigned_toSigned w _ h1
  · intro hab
    rw [execRem, IntRegs.read_write_self _ _ _ hrd, remResult]
    rw [if_neg (by rw [hab.2]; norm_num), if_pos hab]
    rfl
  · intro hb
    rw [execRemu, IntRegs.read_write_self _ _ _ hrd, if_pos hb]

/-- An all-zero integer register file, used to instantiate theorems. -/
def zeroRegs : IntRegs := ⟨fun _ => 0, -1, 0⟩

/-- Witness for C3 at `w = 32`, `rd = 1`, `rs1 = 2`, `rs2 = 3` on the all-zero
register file (both operands zero, so the division-by-zero cases fire). -/
theorem div_rem_boundary_cases_witness :
    (0 < 32 ∧ (1 : Nat) ≠ 0 ∧ zeroRegs.read 2 < 2 ^ 32 ∧ zeroRegs.read 3 < 2 ^ 32)
    ∧ (execDiv 32 zeroRegs 1 2 3).read 1 = 2 ^ 32 - 1
    ∧ (execRem 32 zeroRegs 1 2 3).read 1 = zeroRegs.read 2
    ∧ (execDivu 32 zeroRegs 1 2 3).read 1 = 2 ^ 32 - 1
    ∧ (execRemu 32 zeroRegs 1 2 3).read 1 = zeroRegs.read 2 := by
  have h := div_rem_boundary_cases 32 zeroRegs 1 2 3 (by decide) (by decide)
    (by decide) (by decide)
  refine ⟨⟨by decide, by decide, by decide, by decide⟩, ?_, ?_, ?_, ?_⟩
  · exact h.1 (by decide)
  · exact h.2.2.2.2.1 (by decide)
  · exact h.2.2.2.1 (by decide)
  · exact h.2.2.2.2.2.2 (by decide)

/-! ## The 4-entry custom register file (`CstRegs`) -/

/-- The custom register file from the sources: four word registers plus the
index of the most recently written register and its pre-write value.  Note the
source `write` has no special case for index 0. -/
structure CstRegs where
  regs : Fin 4 → Nat
  lastWrittenReg : Int
  originalValue : Nat

/-- `CstRegs::read`: returns the stored word, with no x0-style zero hardwire. -/
def CstRegs.read (r : CstRegs) (i : Fin 4) : Nat := r.regs i

/-- `CstRegs::write`: records the pre-write value, stores the new value, and
records the index, unconditionally (index 0 included). -/
def CstRegs.write (r : CstRegs) (i : Fin 4) (value : Nat) : CstRegs :=
  { regs := fun j => if j = i then value else r.regs j
    lastWrittenReg := (i : Nat)
    originalValue := r.regs i }

/-- C10: in the 4-entry custom register file no index is hard-wired to zero:
for every index `i < 4` (including 0) and value `v`, a write stores `v` so a
subsequent read returns it, records `i` as last written, and records the
pre-write value as the original value. -/
theorem cstRegs_write_no_zero_hardwire (r : CstRegs) (i : Nat) (h : i < 4) (v : Nat) :
    (r.write ⟨i, h⟩ v).read ⟨i, h⟩ = v
    ∧ (r.write ⟨i, h⟩ v).lastWrittenReg = (i : Int)
    ∧ (r.write ⟨i, h⟩ v).originalValue = r.read ⟨i, h⟩ := by
  refine ⟨?_, rfl, rfl⟩
  simp [CstRegs.read, CstRegs.write]

/-- An all-zero custom register file, used to instantiate theorems. -/
def zeroCstRegs : CstRegs := ⟨fun _ => 0, -1, 0⟩

/-- Witness for C10 at index 0 and value 7: even register 0 is written and
recorded. -/
theorem cstRegs_write_no_zero_hardwire_witness :
    (zeroCstRegs.write ⟨0, by decide⟩ 7).read ⟨0, by decide⟩ = 7
    ∧ (zeroCstRegs.write ⟨0, by decide⟩ 7).lastWrittenReg = (0 : Int)
    ∧ (zeroCstRegs.write ⟨0, by decide⟩ 7).originalValue = zeroCstRegs.read ⟨0, by decide⟩ :=
  cstRegs_write_no_zero_hardwire zeroCstRegs 0 (by decide) 7

/-! ## Memory peek (`Core::peekMemory`, 64-bit variant) -/

/-- The slice of the external memory interface consumed by `peekMemory`:
data-space and instruction-space word reads, each of which may fail. -/
structure PeekMem where
  readWord : Nat → Option Nat
  readInstWord : Nat → Option Nat

/-- `Core::peekMemory(size_t, uint64_t&)` from the sources: try two data-space
word reads, then two instruction-space word reads; on double failure the output
value is left unmodified and the function still returns `true` (its final
statement is `return true`). -/
def peekMemory64 (m : PeekMem) (address val : Nat) : Bool × Nat :=
  match m.readWord address, m.readWord (address + 4) with
  | some low, some high => (true, Nat.lor (2 ^ 32 * high) low)
  | _, _ =>
    match m.readInstWord address, m.readInstWord (address + 4) with
    | some low, some high => (true, Nat.lor (2 ^ 32 * high) low)
    | _, _ => (true, val)

/-- C9: the 64-bit `peekMemory` returns `true` for every address, even when
both the data-space and the instruction-space reads fail, in which case the
output value is left unmodified. -/
theorem peekMemory64_always_true (m : PeekMem) (address val : Nat) :
    (peekMemory64 m address val).1 = true
    ∧ (m.readWord address = none → m.readInstWord address = none →
        (peekMemory64 m address val).2 = val) := by
  constructor
  · unfold peekMemory64
    split
    · rfl
    · split
      · rfl
      · rfl
  · intro h1 h2
    unfold peekMemory64
    rw [h1, h2]

/-- A memory interface on which every read fails. -/
def failMem : PeekMem := ⟨fun _ => none, fun _ => none⟩

/-- Witness for C9: on the always-failing memory, `peekMemory64` returns `true`
and leaves the output value (7) unmodified. -/
theorem peekMemory64_always_true_witness :
    (peekMemory64 failMem 0 7).1 = true ∧ (peekMemory64 failMem 0 7).2 = 7 :=
  ⟨(peekMemory64_always_true failMem 0 7).1,
   (peekMemory64_always_true failMem 0 7).2 rfl rfl⟩

/-! ## Trap entry (`Core::initiateTrap`) -/

theorem lor_two_pow_of_lt {a k : Nat} (h : a < 2 ^ k) : a ||| 2 ^ k = a + 2 ^ k := by
  apply Nat.eq_of_testBit_eq
  intro i
  rw [Nat.testBit_or]
  rcases lt_trichotomy i k with hik | hik | hik
  · rw [Nat.add_comm, Nat.testBit_two_pow_add_gt hik]
    have h2 : Nat.testBit (2 ^ k) i = false := by
      rw [Nat.testBit_two_pow]
      simp
      omega
    simp [h2]
  · subst hik
    rw [Nat.add_comm, Nat.testBit_two_pow_add_eq, Nat.testBit_lt_two_pow h,
      Nat.testBit_two_pow_self]
    rfl
  · have hlt : 2 ^ k < 2 ^ i := Nat.pow_lt_pow_right (by omega) hik
    have h1 : Nat.testBit a i = false := Nat.testBit_lt_two_pow (by omega)
    have h2 : Nat.testBit (2 ^ k) i = false := by
      rw [Nat.testBit_two_pow]
      simp
      omega
    have hsum : a + 2 ^ k < 2 ^ i := by
      have hle : 2 ^ (k + 1) ≤ 2 ^ i := Nat.pow_le_pow_right (by omega) (by omega)
      have heq : 2 ^ (k + 1) = 2 ^ k * 2 := by rw [Nat.pow_succ]
      omega
    have h3 : Nat.testBit (a + 2 ^ k) i = false := Nat.testBit_lt_two_pow hsum
    simp [h1, h2, h3]

/-- Privilege modes of the hart. -/
inductive PrivMode
  | User
  | Supervisor
  | Machine
deriving DecidableEq, Repr

/-- The slice of hart state touched by trap entry.  The machine-mode trap CSRs
are held as direct fields: modelled from the spec, the CSR-file class being an
external collaborator not under the sources, and the spec's trap-dispatch steps
3-5 writing `xEPC`, `xCAUSE`, `xTVAL` and the MSTATUS fields directly.  The
MSTATUS bits not touched by trap entry are carried opaquely in `mstatusRest`. -/
structure TrapState where
  privMode : PrivMode
  pc : Nat
  hasLr : Bool
  mepc : Nat
  mcause : Nat
  mtval : Nat
  mstatusMie : Bool
  mstatusMpie : Bool
  mstatusMpp : PrivMode
  mstatusRest : Nat
  mtvec : Nat

/-- `Core::initiateTrap` from the sources: lose the reservation, take the trap
in machine mode (delegation unimplemented: `nextMode` is always `Machine`),
write `MEPC ← pcToSave & ~1`, `MCAUSE ← cause | (interrupt ? signbit : 0)`,
`MTVAL ← info`, save MIE into MPIE, clear MIE, save the origin mode into MPP,
and set `pc` from MTVEC (vectored on interrupts when the mode bits are 1),
masked to even. -/
def initiateTrap (w : Nat) (st : TrapState) (interrupt : Bool)
    (cause pcToSave info : Nat) : TrapState :=
  let base0 := 4 * (st.mtvec / 4)
  let tvecMode := st.mtvec % 4
  let base := if tvecMode = 1 ∧ interrupt = true then base0 + 4 * cause else base0
  { privMode := PrivMode.Machine
    pc := clearBit0 base
    hasLr := false
    mepc := clearBit0 pcToSave
    mcause := if interrupt then cause ||| 2 ^ (w - 1) else cause
    mtval := info
    mstatusMie := false
    mstatusMpie := st.mstatusMie
    mstatusMpp := st.privMode
    mstatusRest := st.mstatusRest
    mtvec := st.mtvec }

/-- C1: after any taken trap the privilege mode is Machine, `MEPC` is the
trapping pc with bit 0 cleared, `MPIE` is the pre-trap `MIE`, `MIE` is clear,
`MPP` is the pre-trap privilege mode, `MCAUSE` is the cause with the sign bit
set exactly when the trap is an interrupt, and `MTVAL` is the trap info. -/
theorem trap_entry_state (w : Nat) (st : TrapState) (interrupt : Bool)
    (cause pcToSave info : Nat) (hc : cause < 2 ^ (w - 1)) :
    (initiateTrap w st interrupt cause pcToSave info).privMode = PrivMode.Machine
    ∧ (initiateTrap w st interrupt cause pcToSave info).mepc = clearBit0 pcToSave
    ∧ (initiateTrap w st interrupt cause pcToSave info).mstatusMpie = st.mstatusMie
    ∧ (initiateTrap w st interrupt cause pcToSave info).mstatusMie = false
    ∧ (initiateTrap w st interrupt cause pcToSave info).mstatusMpp = st.privMode
    ∧ (initiateTrap w st interrupt cause pcToSave info).mcause
        = cause + (if interrupt then 2 ^ (w - 1) else 0)
    ∧ (initiateTrap w st interrupt cause pcToSave info).mtval = info := by
  refine ⟨rfl, rfl, rfl, rfl, rfl, ?_, rfl⟩
  unfold initiateTrap
  cases interrupt
  · simp
  · simp [lor_two_pow_of_lt hc]

/-- A concrete pre-trap hart state used to instantiate theorems. -/
def trapSt0 : TrapState :=
  ⟨PrivMode.User, 0, true, 0, 0, 0, true, false, PrivMode.Machine, 0, 0⟩

/-- Witness for C1 at `w = 32` on a concrete user-mode state taking interrupt
cause 5 at pc 13 with info 3. -/
theorem trap_entry_state_witness :
    (5 < 2 ^ (32 - 1))
    ∧ ((initiateTrap 32 trapSt0 true 5 13 3).privMode = PrivMode.Machine
      ∧ (initiateTrap 32 trapSt0 true 5 13 3).mepc = clearBit0 13
      ∧ (initiateTrap 32 trapSt0 true 5 13 3).mstatusMpie = trapSt0.mstatusMie
      ∧ (initiateTrap 32 trapSt0 true 5 13 3).mstatusMie = false
      ∧ (initiateTrap 32 trapSt0 true 5 13 3).mstatusMpp = trapSt0.privMode
      ∧ (initiateTrap 32 trapSt0 true 5 13 3).mcause
          = 5 + (if true then 2 ^ (32 - 1) else 0)
      ∧ (initiateTrap 32 trapSt0 true 5 13 3).mtval = 3) :=
  ⟨by decide, trap_entry_state 32 trapSt0 true 5 13 3 (by decide)⟩

/-! ## Load reservation: pokes and FENCE (`Core::pokeMemory`, `Core::execFence`) -/

/-- A store-queue entry `(size, addr, new bytes, previous bytes)`. -/
structure StoreInfo where
  size : Nat
  addr : Nat
  newData : Nat
  prevData : Nat
deriving DecidableEq, Repr

/-- A load-queue entry `(size, addr, target register, previous value, valid)`;
`makeInvalid` clears the valid flag so that a later load exception will not
revert the target register. -/
structure LoadInfo where
  size : Nat
  addr : Nat
  regIx : Nat
  prevData : Nat
  valid : Bool
deriving DecidableEq, Repr

/-- The slice of hart state touched by memory pokes and FENCE. -/
structure LrState where
  hasLr : Bool
  lrAddr : Nat
  lrSize : Nat
  storeQueue : List StoreInfo
  loadQueue : List LoadInfo
  memBytes : Nat → Nat

/-- `Core::pokeMemory` (all four width overloads, `size` bytes): the
reservation is lost when the poke starts at a reserved byte, or starts before
the reserved bytes and spills into them; then the memory is poked. -/
def pokeMemoryLr (st : LrState) (addr size val : Nat) : LrState :=
  { st with
    hasLr := st.hasLr
      && !(decide (st.lrAddr ≤ addr ∧ addr - st.lrAddr < st.lrSize)
           || decide (addr < st.lrAddr ∧ st.lrAddr - addr < size))
    memBytes := fun a =>
      if addr ≤ a ∧ a < addr + size then val / 256 ^ (a - addr) % 256
      else st.memBytes a }

/-- `Core::execFence` from the sources: clears the store queue and the load
queue.  It does not touch the load reservation. -/
def execFence (st : LrState) : LrState :=
  { st with storeQueue := [], loadQueue := [] }

/-- C7 (amended): the reservation is lost on every taken trap and on every
poke touching a byte of `[lr_addr, lr_addr + lr_size)`; an executed FENCE
clears the two speculation queues but leaves the reservation intact. -/
theorem lr_lost_on_trap_and_poke (w : Nat) (tst : TrapState) (interrupt : Bool)
    (cause pcToSave info : Nat) (st : LrState) (addr size val : Nat)
    (hov1 : st.lrAddr < addr + size) (hov2 : addr < st.lrAddr + st.lrSize) :
    (initiateTrap w tst interrupt cause pcToSave info).hasLr = false
    ∧ (pokeMemoryLr st addr size val).hasLr = false
    ∧ (execFence st).hasLr = st.hasLr
    ∧ (execFence st).storeQueue = []
    ∧ (execFence st).loadQueue = [] := by
  refine ⟨rfl, ?_, rfl, rfl, rfl⟩
  unfold pokeMemoryLr
  rcases Nat.lt_or_ge addr st.lrAddr with hlt | hge
  · have hcond : addr < st.lrAddr ∧ st.lrAddr - addr < size := ⟨hlt, by omega⟩
    simp [hcond]
  · have hcond : st.lrAddr ≤ addr ∧ addr - st.lrAddr < st.lrSize := ⟨hge, by omega⟩
    simp [hcond]

/-- A concrete hart state holding a 4-byte reservation at address 100. -/
def lrSt0 : LrState := ⟨true, 100, 4, [⟨4, 8, 1, 0⟩], [⟨4, 16, 5, 0, true⟩], fun _ => 0⟩

/-- Witness for C7 (amended): a 2-byte poke at address 102 touches the
reservation `[100, 104)` and loses it; FENCE keeps it. -/
theorem lr_lost_on_trap_and_poke_witness :
    (lrSt0.lrAddr < 102 + 2 ∧ 102 < lrSt0.lrAddr + lrSt0.lrSize)
    ∧ ((initiateTrap 32 trapSt0 false 2 0 0).hasLr = false
      ∧ (pokeMemoryLr lrSt0 102 2 0).hasLr = false
      ∧ (execFence lrSt0).hasLr = lrSt0.hasLr
      ∧ (execFence lrSt0).storeQueue = []
      ∧ (execFence lrSt0).loadQueue = []) :=
  ⟨⟨by decide, by decide⟩,
   lr_lost_on_trap_and_poke 32 trapSt0 false 2 0 0 lrSt0 102 2 0 (by decide) (by decide)⟩

/-- Counterexample to C7 as stated: executing FENCE on a state holding a
reservation leaves the reservation held (`has_lr` stays `true`), contrary to
the claim that every executed FENCE loses it. -/
theorem lr_lost_on_fence_counterexample :
    lrSt0.hasLr = true ∧ (execFence lrSt0).hasLr = true := ⟨rfl, rfl⟩

/-! ## Instruction fetch (`Core::fetchInst`) -/

/-- Synchronous exception causes used by the embedded paths. -/
inductive ExceptionCause
  | INST_ADDR_MISAL
  | INST_ACC_FAULT
  | LOAD_ADDR_MISAL
  | LOAD_ACC_FAULT
  | STORE_ADDR_MISAL
  | STORE_ACC_FAULT
deriving DecidableEq, Repr

/-- Modelled from the spec: an instruction word is compressed when its low two
bits are not `11` (the 16-bit encodings of the C extension; the defining
predicate is not under the sources, only its callers). -/
def isCompressedInst (inst : Nat) : Bool := decide (inst % 4 ≠ 3)

/-- The slice of hart state touched by instruction fetch.  `exceptionRaised`
records the `(cause, pc, info)` triple passed to `initiateException`, whose
trap-entry effect is `initiateTrap` above. -/
structure FetchState where
  pc : Nat
  forceFetchFail : Bool
  forceFetchFailOffset : Nat
  readInstWord : Nat → Option Nat
  readInstHalf : Nat → Option Nat
  exceptionRaised : Option (ExceptionCause × Nat × Nat)

/-- `Core::fetchInst` from the sources.  Returns the poststate, the success
flag and the instruction out-parameter (whose input value `inst` survives on
the paths that do not assign it). -/
def fetchInst (st : FetchState) (addr inst : Nat) : FetchState × Bool × Nat :=
  if st.forceFetchFail then
    ({ st with
       forceFetchFail := false,
       exceptionRaised :=
         some (ExceptionCause.INST_ACC_FAULT, st.pc, st.pc + st.forceFetchFailOffset) },
     false, inst)
  else if addr % 2 = 1 then
    ({ st with exceptionRaised := some (ExceptionCause.INST_ADDR_MISAL, addr, addr) },
     false, inst)
  else
    match st.readInstWord addr with
    | some word => (st, true, word)
    | none =>
      match st.readInstHalf addr with
      | none =>
          ({ st with exceptionRaised := some (ExceptionCause.INST_ACC_FAULT, addr, addr) },
           false, inst)
      | some half =>
          if isCompressedInst half then (st, true, half)
          else
            ({ st with
               exceptionRaised := some (ExceptionCause.INST_ACC_FAULT, addr, addr + 2) },
             false, half)

/-- C5 (amended): the forced fetch-fail hook has priority and raises
`INST_ACC_FAULT`; otherwise an odd address raises `INST_ADDR_MISAL`; otherwise,
when the 4-byte read fails but the 2-byte read yields a compressed halfword the
fetch succeeds with that halfword, and when it yields a full-size halfword the
fetch raises `INST_ACC_FAULT` with info `addr + 2`. -/
theorem fetchInst_cases (st : FetchState) (addr inst : Nat) :
    (st.forceFetchFail = true →
        (fetchInst st addr inst).1.exceptionRaised
            = some (ExceptionCause.INST_ACC_FAULT, st.pc, st.pc + st.forceFetchFailOffset)
        ∧ (fetchInst st addr inst).2.1 = false)
    ∧ (st.forceFetchFail = false → addr % 2 = 1 →
        (fetchInst st addr inst).1.exceptionRaised
            = some (ExceptionCause.INST_ADDR_MISAL, addr, addr)
        ∧ (fetchInst st addr inst).2.1 = false)
    ∧ (∀ half, st.forceFetchFail = false → addr % 2 = 0 →
        st.readInstWord addr = none → st.readInstHalf addr = some half →
        isCompressedInst half = true →
        (fetchInst st addr inst).2.1 = true ∧ (fetchInst st addr inst).2.2 = half
        ∧ (fetchInst st addr inst).1.exceptionRaised = st.exceptionRaised)
    ∧ (∀ half, st.forceFetchFail = false → addr % 2 = 0 →
        st.readInstWord addr = none → st.readInstHalf addr = some half →
        isCompressedInst half = false →
        (fetchInst st addr inst).1.exceptionRaised
            = some (ExceptionCause.INST_ACC_FAULT, addr, addr + 2)
        ∧ (fetchInst st addr inst).2.1 = false) := by
  refine ⟨?_, ?_, ?_, ?_⟩
  · intro hf
    simp [fetchInst, hf]
  · intro hf hodd
    simp [fetchInst, hf, hodd]
  · intro half hf heven hw4 hh hc
    simp [fetchInst, hf, heven, hw4, hh, hc]
  · intro half hf heven hw4 hh hc
    simp [fetchInst, hf, heven, hw4, hh, hc]

/-- A fetch state with the forced fetch-fail hook armed and no readable
memory. -/
def fetchFailSt : FetchState := ⟨0, true, 0, fun _ => none, fun _ => none, none⟩

/-- A fetch state whose memory yields no 4-byte word at address 4 but a
compressed halfword (1) there, and a full-size halfword (3) at address 8. -/
def fetchHalfSt : FetchState :=
  ⟨0, false, 0, fun _ => none,
   fun a => if a = 4 then some 1 else if a = 8 then some 3 else none, none⟩

/-- Witness for C5 (amended), exercising all four branches at concrete
states. -/
theorem fetchInst_cases_witness :
    ((fetchInst fetchFailSt 0 0).1.exceptionRaised
        = some (ExceptionCause.INST_ACC_FAULT, 0, 0)
      ∧ (fetchInst fetchFailSt 0 0).2.1 = false)
    ∧ ((fetchInst fetchHalfSt 1 0).1.exceptionRaised
        = some (ExceptionCause.INST_ADDR_MISAL, 1, 1)
      ∧ (fetchInst fetchHalfSt 1 0).2.1 = false)
    ∧ ((fetchInst fetchHalfSt 4 0).2.1 = true
      ∧ (fetchInst fetchHalfSt 4 0).2.2 = 1
      ∧ (fetchInst fetchHalfSt 4 0).1.exceptionRaised = fetchHalfSt.exceptionRaised)
    ∧ ((fetchInst fetchHalfSt 8 0).1.exceptionRaised
        = some (ExceptionCause.INST_ACC_FAULT, 8, 8 + 2)
      ∧ (fetchInst fetchHalfSt 8 0).2.1 = false) :=
  ⟨(fetchInst_cases fetchFailSt 0 0).1 rfl,
   (fetchInst_cases fetchHalfSt 1 0).2.1 rfl rfl,
   (fetchInst_cases fetchHalfSt 4 0).2.2.1 1 rfl rfl rfl rfl rfl,
   (fetchInst_cases fetchHalfSt 8 0).2.2.2 3 rfl rfl rfl rfl rfl⟩

/-- Counterexample to C5 as stated: at an odd address with the forced
fetch-fail hook set, the fetch raises `INST_ACC_FAULT` (the hook has priority),
not `INST_ADDR_MISAL` as the claim's first clause requires. -/
theorem fetchInst_misal_counterexample :
    (1 : Nat) % 2 = 1
    ∧ fetchFailSt.forceFetchFail = true
    ∧ (fetchInst fetchFailSt 1 0).1.exceptionRaised
        = some (ExceptionCause.INST_ACC_FAULT, 0, 0)
    ∧ (fetchInst fetchFailSt 1 0).1.exceptionRaised
        ≠ some (ExceptionCause.INST_ADDR_MISAL, 1, 1) := by
  refine ⟨rfl, rfl, rfl, ?_⟩
  decide

/-! ## Store-conditional (`Core::storeConditional`, `Core::execSc_w`) -/

/-- The slice of the external memory interface consumed by the
store-conditional path.  Word contents are keyed by byte address; `writeOk`
and `checkWriteOk` are the success oracles of `Memory::write` and
`Memory::checkWrite`; `dccm` classifies addresses; `lastOld` and
`lastWriteDccm` reflect `getLastWriteOldValue` / `isLastWriteToDccm`. -/
structure ScMem where
  writeOk : Nat → Bool
  checkWriteOk : Nat → Bool
  dccm : Nat → Bool
  words : Nat → Nat
  lastOld : Nat
  lastWriteDccm : Bool

/-- `Memory::write` for a word: on success the word is stored and the
last-write bookkeeping updated. -/
def ScMem.write (m : ScMem) (addr v : Nat) : Option ScMem :=
  if m.writeOk addr then
    some { m with
           words := fun a => if a = addr then v else m.words a,
           lastOld := m.words addr,
           lastWriteDccm := m.dccm addr }
  else none

/-- The slice of hart state touched by the store-conditional path.  The
trigger engine is external (the core only consumes its hit signals), so the
address- and data-match outcomes are oracle fields. -/
structure ScState where
  intRegs : IntRegs
  mem : ScMem
  hasLr : Bool
  lrAddr : Nat
  hasException : Bool
  triggerTripped : Bool
  forceAccessFail : Bool
  amoIllegalOutsideDccm : Bool
  hasActiveTrigger : Bool
  addrTrigHit : Nat → Bool
  dataTrigHit : Nat → Bool
  toHostValid : Bool
  toHost : Nat
  maxStoreQueueSize : Nat
  storeQueue : List StoreInfo
  exceptionRaised : Option (ExceptionCause × Nat)

/-- `Core::initiateStoreException`: clear the forced-fail hook and raise the
exception; the trap entry (embedded as `initiateTrap`) sets the exception flag
and loses the reservation. -/
def scRaise (st : ScState) (cause : ExceptionCause) (addr : Nat) : ScState :=
  { st with
    forceAccessFail := false,
    hasException := true,
    hasLr := false,
    exceptionRaised := some (cause, addr) }

/-- `Core::putInStoreQueue`: skipped when the queue is disabled or the last
write went to DCCM; drops the oldest entry when full. -/
def scPutInStoreQueue (st : ScState) (size addr data prev : Nat) : ScState :=
  if st.maxStoreQueueSize = 0 ∨ st.mem.lastWriteDccm then st
  else if st.storeQueue.length ≥ st.maxStoreQueueSize then
    { st with storeQueue := st.storeQueue.drop 1 ++ [⟨size, addr, data, prev⟩] }
  else { st with storeQueue := st.storeQueue ++ [⟨size, addr, data, prev⟩] }

/-- Outcome of an executor routine: normal completion, or a
`CoreException(Stop)` thrown by a non-zero write to the to-host address. -/
inductive ExecOutcome
  | done : ScState → ExecOutcome
  | stop : ScState → Nat → ExecOutcome

def ExecOutcome.state : ExecOutcome → ScState
  | .done s => s
  | .stop s _ => s

def ExecOutcome.isStop : ExecOutcome → Bool
  | .done _ => false
  | .stop _ _ => true

/-- `Core::storeConditional` (word variant) embedded from the sources:
address-trigger check; misaligned → `STORE_ACC_FAULT`; AMO-outside-DCCM →
`STORE_ACC_FAULT`; store-data trigger; reservation check; write (or forced
fail → `STORE_ACC_FAULT`); to-host stop; store-queue insertion.  Returns the
poststate and the success flag, or the Stop outcome. -/
def storeConditional (st : ScState) (addr storeVal : Nat) :
    (ScState × Bool) ⊕ (ScState × Nat) :=
  let st1 := if st.hasActiveTrigger && st.addrTrigHit addr
    then { st with triggerTripped := true } else st
  if addr % 4 ≠ 0 then
    if st1.triggerTripped then .inl (st1, false)
    else .inl (scRaise st1 ExceptionCause.STORE_ACC_FAULT addr, false)
  else if st1.amoIllegalOutsideDccm && !(st1.mem.dccm addr) then
    if st1.triggerTripped then .inl (st1, false)
    else .inl (scRaise st1 ExceptionCause.STORE_ACC_FAULT addr, false)
  else
    let st2 := if st1.hasActiveTrigger && !st1.forceAccessFail
        && st1.mem.checkWriteOk addr && st1.dataTrigHit storeVal
      then { st1 with triggerTripped := true } else st1
    if st2.triggerTripped then .inl (st2, false)
    else if !st2.hasLr || addr ≠ st2.lrAddr then .inl (st2, false)
    else
      let forceFail := st2.forceAccessFail
        || (st2.amoIllegalOutsideDccm && !(st2.mem.dccm addr))
      if forceFail then .inl (scRaise st2 ExceptionCause.STORE_ACC_FAULT addr, false)
      else
        match st2.mem.write addr storeVal with
        | none => .inl (scRaise st2 ExceptionCause.STORE_ACC_FAULT addr, false)
        | some m2 =>
          let st3 := { st2 with mem := m2 }
          if st3.toHostValid && decide (addr = st3.toHost) && decide (storeVal ≠ 0) then
            .inr (st3, storeVal)
          else if st3.maxStoreQueueSize ≠ 0 then
            .inl (scPutInStoreQueue st3 4 addr storeVal m2.lastOld, true)
          else .inl (st3, true)

/-- `Core::execSc_w` from the sources: on success clear the reservation and
write 0 to `rd`; on failure clear the reservation and, unless an exception or
trigger occurred, write 1 to `rd`. -/
def execSc_w (st : ScState) (rd rs1 rs2 : Nat) : ExecOutcome :=
  let value := st.intRegs.read rs2 % 2 ^ 32
  let addr := st.intRegs.read rs1
  match storeConditional st addr value with
  | .inr (st2, v) => .stop st2 v
  | .inl (st2, true) =>
      .done { st2 with hasLr := false, intRegs := st2.intRegs.write rd 0 }
  | .inl (st2, false) =>
      let st3 := { st2 with hasLr := false }
      if st3.hasException || st3.triggerTripped then .done st3
      else .done { st3 with intRegs := st3.intRegs.write rd 1 }

/-- C2 (amended): with no active trigger, no pending exception, and the
AMO-outside-DCCM restriction off, an executed SC.W stores to memory and writes
0 to `rd` iff the reservation is held, the address matches `lr_addr`, the
access is aligned, and the memory write succeeds — unless the store hits the
to-host address with a non-zero value, in which case the write occurs but the
simulation stops without writing `rd`.  When the reservation is not held or
the address differs, no memory write occurs and `rd` is written 1; on
misalignment or write failure a `STORE_ACC_FAULT` is raised and `rd` is not
written. -/
theorem sc_w_success_iff (st : ScState) (rd rs1 rs2 a v : Nat)
    (hrd : rd ≠ 0)
    (htrig : st.hasActiveTrigger = false)
    (htrip : st.triggerTripped = false)
    (hexc : st.hasException = false)
    (hamo : st.amoIllegalOutsideDccm = false)
    (ha : a = st.intRegs.read rs1)
    (hv : v = st.intRegs.read rs2 % 2 ^ 32) :
    ((st.toHostValid = false →
      st.hasLr = true → a = st.lrAddr → a % 4 = 0 →
        st.forceAccessFail = false → st.mem.writeOk a = true →
      (execSc_w st rd rs1 rs2).isStop = false
      ∧ (execSc_w st rd rs1 rs2).state.intRegs.read rd = 0
      ∧ (execSc_w st rd rs1 rs2).state.mem.words a = v
      ∧ (execSc_w st rd rs1 rs2).state.hasException = false)
    ∧ (¬(st.hasLr = true ∧ a = st.lrAddr) → a % 4 = 0 →
      (execSc_w st rd rs1 rs2).isStop = false
      ∧ (execSc_w st rd rs1 rs2).state.intRegs.read rd = 1
      ∧ (execSc_w st rd rs1 rs2).state.mem.words = st.mem.words
      ∧ (execSc_w st rd rs1 rs2).state.hasException = false)
    ∧ (st.hasLr = true → a = st.lrAddr → a % 4 = 0 →
        (st.forceAccessFail = true ∨ st.mem.writeOk a = false) →
      (execSc_w st rd rs1 rs2).isStop = false
      ∧ (execSc_w st rd rs1 rs2).state.hasException = true
      ∧ (execSc_w st rd rs1 rs2).state.exceptionRaised
          = some (ExceptionCause.STORE_ACC_FAULT, a)
      ∧ (execSc_w st rd rs1 rs2).state.intRegs = st.intRegs
      ∧ (execSc_w st rd rs1 rs2).state.mem.words = st.mem.words)
    ∧ (a % 4 ≠ 0 →
      (execSc_w st rd rs1 rs2).isStop = false
      ∧ (execSc_w st rd rs1 rs2).state.hasException = true
      ∧ (execSc_w st rd rs1 rs2).state.exceptionRaised
          = some (ExceptionCause.STORE_ACC_FAULT, a)
      ∧ (execSc_w st rd rs1 rs2).state.intRegs = st.intRegs
      ∧ (execSc_w st rd rs1 rs2).state.mem.words = st.mem.words)
    ∧ (st.hasLr = true → a = st.lrAddr → a % 4 = 0 →
        st.forceAccessFail = false → st.mem.writeOk a = true →
        st.toHostValid = true → a = st.toHost → v ≠ 0 →
      (execSc_w st rd rs1 rs2).isStop = true
      ∧ (execSc_w st rd rs1 rs2).state.mem.words a = v
      ∧ (execSc_w st rd rs1 rs2).state.intRegs = st.intRegs)) := by
  subst ha hv
  refine ⟨?_, ?_, ?_, ?_, ?_⟩
  · intro hth hlr haddr hal hff hwok
    simp [execSc_w, storeConditional, scRaise, ScMem.write, scPutInStoreQueue,
      htrig, htrip, hexc, hamo, hlr, hal, hff, hwok, hth, ← haddr,
      IntRegs.read_write_self _ _ _ hrd]
    split_ifs <;>
      simp [ExecOutcome.state, ExecOutcome.isStop, IntRegs.read_write_self _ _ _ hrd]
  · intro hnores hal
    cases hlr : st.hasLr
    · simp [execSc_w, storeConditional, scRaise, htrig, htrip, hexc, hamo, hal,
        hlr, ExecOutcome.state, ExecOutcome.isStop, IntRegs.read_write_self _ _ _ hrd]
    · have hne : st.intRegs.read rs1 ≠ st.lrAddr := fun he => hnores ⟨hlr, he⟩
      simp [execSc_w, storeConditional, scRaise, htrig, htrip, hexc, hamo, hal,
        hlr, hne, ExecOutcome.state, ExecOutcome.isStop, IntRegs.read_write_self _ _ _ hrd]
  · intro hlr haddr hal hwf
    rcases hwf with hff | hwok
    · simp [execSc_w, storeConditional, scRaise, ScMem.write, htrig, htrip,
        hexc, hamo, hal, hlr, ← haddr, hff, ExecOutcome.state, ExecOutcome.isStop]
    · cases hffc : st.forceAccessFail <;>
        simp [execSc_w, storeConditional, scRaise, ScMem.write, htrig, htrip,
          hexc, hamo, hal, hlr, ← haddr, hwok, hffc, ExecOutcome.state, ExecOutcome.isStop]
  · intro hmis
    simp [execSc_w, storeConditional, scRaise, htrig, htrip, hexc, hmis,
      ExecOutcome.state, ExecOutcome.isStop]
  · intro hlr haddr hal hff hwok hthv hth hvne
    have hvne2 : ¬(st.intRegs.read rs2 % 4294967296 = 0) := by
      intro h0
      exact hvne (by simpa using h0)
    simp [execSc_w, storeConditional, scRaise, ScMem.write, scPutInStoreQueue,
      htrig, htrip, hexc, hamo, hlr, hal, hff, hwok, hthv, ← hth, hvne2, ← haddr,
      ExecOutcome.state, ExecOutcome.isStop]

/-! ## CSR instructions (`Core::execCsrrw/s/c[i]`, `Core::doCsrRead`, `Core::doCsrWrite`) -/

/-- `~x` on a `w`-bit word. -/
def complW (w x : Nat) : Nat := Nat.xor (wordMask w) x

/-- The slice of hart state touched by the CSR instructions, for one addressed
CSR.  Modelled from the spec where the CSR file class (not under the sources)
is concerned: `read` fails when the CSR is unimplemented, privilege is
insufficient, or it is debug-only outside debug mode (all folded into
`readable`); `write` applies `value & write_mask` and records the CSR as
written (`csrWritten`); `isWriteable` is `writeable`.  The counter and
DCSR/MGPMC side-effect hooks of `doCsrWrite` are carried explicitly. -/
structure CsrState where
  csrValue : Nat
  writeMask : Nat
  readable : Bool
  writeable : Bool
  csrWritten : Bool
  intRegs : IntRegs
  triggerTripped : Bool
  illegal : Bool
  retiredInsts : Nat
  cycleCount : Nat
  isMinstret : Bool
  isMcycle : Bool
  isDcsr : Bool
  isMgpmc : Bool
  dcsrStep : Bool
  dcsrStepIe : Bool
  countersCsrOn : Bool
  prevCountersCsrOn : Bool

/-- `Core::doCsrRead`: yields the CSR value, or raises illegal-instruction. -/
def doCsrRead (st : CsrState) : CsrState × Option Nat :=
  if st.readable then (st, some st.csrValue)
  else ({ st with illegal := true }, none)

/-- `Core::doCsrWrite` from the sources: illegal if not writeable; pre-increment
MINSTRET/MCYCLE so that writing their storage takes effect; masked CSR write
with record; integer-register update; DCSR step / MGPMC counter-enable hooks;
post-decrement to compensate the run loop's auto-increment. -/
def doCsrWrite (st0 : CsrState) (csrVal intReg intRegVal : Nat) : CsrState :=
  if !st0.writeable then { st0 with illegal := true }
  else
    let st1 := if st0.isMinstret
      then { st0 with retiredInsts := st0.retiredInsts + 1 } else st0
    let st2 := if st1.isMcycle
      then { st1 with cycleCount := st1.cycleCount + 1 } else st1
    let st3 := { st2 with csrValue := Nat.land csrVal st2.writeMask, csrWritten := true }
    let st4 := { st3 with intRegs := st3.intRegs.write intReg intRegVal }
    let st5 :=
      if st4.isDcsr then
        { st4 with
          dcsrStep := decide ((csrVal / 4) % 2 = 1),
          dcsrStepIe := decide ((csrVal / 2 ^ 11) % 2 = 1) }
      else if st4.isMgpmc then
        { st4 with
          prevCountersCsrOn := st4.countersCsrOn,
          countersCsrOn := decide (csrVal % 2 = 1) }
      else st4
    let st6 := if st5.isMinstret
      then { st5 with retiredInsts := st5.retiredInsts - 1 } else st5
    if st6.isMcycle then { st6 with cycleCount := st6.cycleCount - 1 } else st6

/-- On a writeable CSR, `doCsrWrite` masks the value, records the write,
updates the integer register, and leaves the counters net-unchanged. -/
theorem doCsrWrite_writeable (st : CsrState) (csrVal intReg intRegVal : Nat)
    (hw : st.writeable = true) :
    (doCsrWrite st csrVal intReg intRegVal).csrValue = Nat.land csrVal st.writeMask
    ∧ (doCsrWrite st csrVal intReg intRegVal).csrWritten = true
    ∧ (doCsrWrite st csrVal intReg intRegVal).intRegs = st.intRegs.write intReg intRegVal
    ∧ (doCsrWrite st csrVal intReg intRegVal).illegal = st.illegal
    ∧ (doCsrWrite st csrVal intReg intRegVal).retiredInsts = st.retiredInsts
    ∧ (doCsrWrite st csrVal intReg intRegVal).cycleCount = st.cycleCount := by
  cases hmi : st.isMinstret <;> cases hmc : st.isMcycle <;>
    cases hdc : st.isDcsr <;> cases hmg : st.isMgpmc <;>
    simp [doCsrWrite, hw, hmi, hmc, hdc, hmg]

/-- `Core::execCsrrw`. -/
def execCsrrw (st : CsrState) (rd rs1 : Nat) : CsrState :=
  if st.triggerTripped then st
  else
    match doCsrRead st with
    | (st1, none) => st1
    | (st1, some prev) => doCsrWrite st1 (st1.intRegs.read rs1) rd prev

/-- `Core::execCsrrs`. -/
def execCsrrs (st : CsrState) (rd rs1 : Nat) : CsrState :=
  if st.triggerTripped then st
  else
    match doCsrRead st with
    | (st1, none) => st1
    | (st1, some prev) =>
      let next := Nat.lor prev (st1.intRegs.read rs1)
      if rs1 = 0 then { st1 with intRegs := st1.intRegs.write rd prev }
      else doCsrWrite st1 next rd prev

/-- `Core::execCsrrc`. -/
def execCsrrc (w : Nat) (st : CsrState) (rd rs1 : Nat) : CsrState :=
  if st.triggerTripped then st
  else
    match doCsrRead st with
    | (st1, none) => st1
    | (st1, some prev) =>
      let next := Nat.land prev (complW w (st1.intRegs.read rs1))
      if rs1 = 0 then { st1 with intRegs := st1.intRegs.write rd prev }
      else doCsrWrite st1 next rd prev

/-- `Core::execCsrrwi`: the CSR read is skipped when `rd` is x0. -/
def execCsrrwi (st : CsrState) (rd imm : Nat) : CsrState :=
  if st.triggerTripped then st
  else if rd ≠ 0 then
    match doCsrRead st with
    | (st1, none) => st1
    | (st1, some prev) => doCsrWrite st1 imm rd prev
  else doCsrWrite st imm rd 0

/-- `Core::execCsrrsi`. -/
def execCsrrsi (st : CsrState) (rd imm : Nat) : CsrState :=
  if st.triggerTripped then st
  else
    match doCsrRead st with
    | (st1, none) => st1
    | (st1, some prev) =>
      let next := Nat.lor prev imm
      if imm = 0 then { st1 with intRegs := st1.intRegs.write rd prev }
      else doCsrWrite st1 next rd prev

/-- `Core::execCsrrci`. -/
def execCsrrci (w : Nat) (st : CsrState) (rd imm : Nat) : CsrState :=
  if st.triggerTripped then st
  else
    match doCsrRead st with
    | (st1, none) => st1
    | (st1, some prev) =>
      let next := Nat.land prev (complW w imm)
      if imm = 0 then { st1 with intRegs := st1.intRegs.write rd prev }
      else doCsrWrite st1 next rd prev


/-- C6: on a readable, writeable CSR, with no trigger tripped: every
CSRRW/S/C[I] reads the old CSR value into `rd`; the value written is
`old op operand` masked by the CSR's write mask; and `rs1 = x0` for the S/C
forms, or immediate 0 for the SI/CI forms, suppresses the CSR write entirely
(value, record and side-effect hooks untouched) while `rd` still receives the
old value. -/
theorem csr_ops_cases (w : Nat) (st : CsrState) (rd rs1 imm : Nat)
    (hrd : rd ≠ 0)
    (hread : st.readable = true)
    (hwrite : st.writeable = true)
    (htrip : st.triggerTripped = false) :
    ((execCsrrw st rd rs1).csrValue = Nat.land (st.intRegs.read rs1) st.writeMask
      ∧ (execCsrrw st rd rs1).intRegs.read rd = st.csrValue
      ∧ (execCsrrw st rd rs1).csrWritten = true)
    ∧ ((execCsrrwi st rd imm).csrValue = Nat.land imm st.writeMask
      ∧ (execCsrrwi st rd imm).intRegs.read rd = st.csrValue
      ∧ (execCsrrwi st rd imm).csrWritten = true)
    ∧ (rs1 ≠ 0 →
      (execCsrrs st rd rs1).csrValue
          = Nat.land (Nat.lor st.csrValue (st.intRegs.read rs1)) st.writeMask
      ∧ (execCsrrs st rd rs1).intRegs.read rd = st.csrValue
      ∧ (execCsrrs st rd rs1).csrWritten = true)
    ∧ (rs1 ≠ 0 →
      (execCsrrc w st rd rs1).csrValue
          = Nat.land (Nat.land st.csrValue (complW w (st.intRegs.read rs1))) st.writeMask
      ∧ (execCsrrc w st rd rs1).intRegs.read rd = st.csrValue
      ∧ (execCsrrc w st rd rs1).csrWritten = true)
    ∧ (imm ≠ 0 →
      (execCsrrsi st rd imm).csrValue
          = Nat.land (Nat.lor st.csrValue imm) st.writeMask
      ∧ (execCsrrsi st rd imm).intRegs.read rd = st.csrValue
      ∧ (execCsrrsi st rd imm).csrWritten = true)
    ∧ (imm ≠ 0 →
      (execCsrrci w st rd imm).csrValue
          = Nat.land (Nat.land st.csrValue (complW w imm)) st.writeMask
      ∧ (execCsrrci w st rd imm).intRegs.read rd = st.csrValue
      ∧ (execCsrrci w st rd imm).csrWritten = true)
    ∧ ((execCsrrs st rd 0).csrValue = st.csrValue
      ∧ (execCsrrs st rd 0).csrWritten = st.csrWritten
      ∧ (execCsrrs st rd 0).intRegs.read rd = st.csrValue
      ∧ (execCsrrs st rd 0).dcsrStep = st.dcsrStep
      ∧ (execCsrrs st rd 0).countersCsrOn = st.countersCsrOn
      ∧ (execCsrrs st rd 0).retiredInsts = st.retiredInsts)
    ∧ ((execCsrrc w st rd 0).csrValue = st.csrValue
      ∧ (execCsrrc w st rd 0).csrWritten = st.csrWritten
      ∧ (execCsrrc w st rd 0).intRegs.read rd = st.csrValue)
    ∧ ((execCsrrsi st rd 0).csrValue = st.csrValue
      ∧ (execCsrrsi st rd 0).csrWritten = st.csrWritten
      ∧ (execCsrrsi st rd 0).intRegs.read rd = st.csrValue
      ∧ (execCsrrsi st rd 0).dcsrStep = st.dcsrStep
      ∧ (execCsrrsi st rd 0).countersCsrOn = st.countersCsrOn
      ∧ (execCsrrsi st rd 0).retiredInsts = st.retiredInsts)
    ∧ ((execCsrrci w st rd 0).csrValue = st.csrValue
      ∧ (execCsrrci w st rd 0).csrWritten = st.csrWritten
      ∧ (execCsrrci w st rd 0).intRegs.read rd = st.csrValue) := by
  refine ⟨?_, ?_, ?_, ?_, ?_, ?_, ?_, ?_, ?_, ?_⟩
  · simp [execCsrrw, doCsrRead, hread, htrip, doCsrWrite_writeable, hwrite,
      IntRegs.read_write_self _ _ _ hrd]
  · simp [execCsrrwi, doCsrRead, hread, htrip, hrd, doCsrWrite_writeable, hwrite,
      IntRegs.read_write_self _ _ _ hrd]
  · intro hrs1
    simp [execCsrrs, doCsrRead, hread, htrip, hrs1, doCsrWrite_writeable, hwrite,
      IntRegs.read_write_self _ _ _ hrd]
  · intro hrs1
    simp [execCsrrc, doCsrRead, hread, htrip, hrs1, doCsrWrite_writeable, hwrite,
      IntRegs.read_write_self _ _ _ hrd]
  · intro himm
    simp [execCsrrsi, doCsrRead, hread, htrip, himm, doCsrWrite_writeable, hwrite,
      IntRegs.read_write_self _ _ _ hrd]
  · intro himm
    simp [execCsrrci, doCsrRead, hread, htrip, himm, doCsrWrite_writeable, hwrite,
      IntRegs.read_write_self _ _ _ hrd]
  · simp [execCsrrs, doCsrRead, hread, htrip, IntRegs.read_write_self _ _ _ hrd]
  · simp [execCsrrc, doCsrRead, hread, htrip, IntRegs.read_write_self _ _ _ hrd]
  · simp [execCsrrsi, doCsrRead, hread, htrip, IntRegs.read_write_self _ _ _ hrd]
  · simp [execCsrrci, doCsrRead, hread, htrip, IntRegs.read_write_self _ _ _ hrd]

/-- A concrete CSR state: value `0b1100`, write mask `0b1010`, readable and
writeable, `x2 = 6`. -/
def csrSt0 : CsrState :=
  { csrValue := 12, writeMask := 10, readable := true, writeable := true,
    csrWritten := false,
    intRegs := ⟨fun i => if i = 2 then 6 else 0, -1, 0⟩,
    triggerTripped := false, illegal := false, retiredInsts := 3, cycleCount := 4,
    isMinstret := false, isMcycle := false, isDcsr := false, isMgpmc := false,
    dcsrStep := false, dcsrStepIe := false, countersCsrOn := true,
    prevCountersCsrOn := true }

/-- Witness for C6 at `w = 32`, `rd = 1`, `rs1 = 2`, `imm = 5` on `csrSt0`:
CSRRW writes `6 & 10 = 2`, CSRRS writes `(12|6) & 10 = 10`, the register-0 /
immediate-0 forms suppress the write, and `rd` always receives 12. -/
theorem csr_ops_cases_witness :
    ((execCsrrw csrSt0 1 2).csrValue = 2
      ∧ (execCsrrw csrSt0 1 2).intRegs.read 1 = 12
      ∧ (execCsrrw csrSt0 1 2).csrWritten = true)
    ∧ ((execCsrrs csrSt0 1 2).csrValue = 10
      ∧ (execCsrrs csrSt0 1 2).intRegs.read 1 = 12
      ∧ (execCsrrs csrSt0 1 2).csrWritten = true)
    ∧ ((execCsrrwi csrSt0 1 5).csrValue = Nat.land 5 csrSt0.writeMask
      ∧ (execCsrrwi csrSt0 1 5).intRegs.read 1 = 12)
    ∧ ((execCsrrc 32 csrSt0 1 2).csrValue
        = Nat.land (Nat.land 12 (complW 32 6)) 10)
    ∧ ((execCsrrs csrSt0 1 0).csrValue = 12
      ∧ (execCsrrs csrSt0 1 0).csrWritten = false
      ∧ (execCsrrs csrSt0 1 0).intRegs.read 1 = 12)
    ∧ ((execCsrrsi csrSt0 1 0).csrValue = 12
      ∧ (execCsrrsi csrSt0 1 0).csrWritten = false
      ∧ (execCsrrsi csrSt0 1 0).intRegs.read 1 = 12)
    ∧ ((execCsrrci 32 csrSt0 1 0).csrValue = 12
      ∧ (execCsrrci 32 csrSt0 1 0).csrWritten = false) := by
  have h := csr_ops_cases 32 csrSt0 1 2 5 (by decide) rfl rfl rfl
  have h0 := csr_ops_cases 32 csrSt0 1 2 0 (by decide) rfl rfl rfl
  refine ⟨⟨?_, ?_, ?_⟩, ⟨?_, ?_, ?_⟩, ⟨?_, ?_⟩, ?_, ⟨?_, ?_, ?_⟩, ⟨?_, ?_, ?_⟩, ⟨?_, ?_⟩⟩
  · rw [h.1.1]
    decide
  · exact h.1.2.1
  · exact h.1.2.2
  · rw [(h.2.2.1 (by decide)).1]
    decide
  · exact (h.2.2.1 (by decide)).2.1
  · exact (h.2.2.1 (by decide)).2.2
  · exact h.2.1.1
  · exact h.2.1.2.1
  · exact (h.2.2.2.1 (by decide)).1
  · rw [(h.2.2.2.2.2.2.1).1]
    rfl
  · exact (h.2.2.2.2.2.2.1).2.1
  · exact (h.2.2.2.2.2.2.1).2.2.1
  · rw [(h0.2.2.2.2.2.2.2.2.1).1]
    rfl
  · exact (h0.2.2.2.2.2.2.2.2.1).2.1
  · exact (h0.2.2.2.2.2.2.2.2.1).2.2.1
  · rw [(h0.2.2.2.2.2.2.2.2.2).1]
    rfl
  · exact (h0.2.2.2.2.2.2.2.2.2).2.1

/-- Register file for the SC scenarios: `x1 = 5`, `x2 = 100`, `x3 = 7`,
`x4 = 101`. -/
def scRegs0 : IntRegs :=
  ⟨fun i => if i = 1 then 5 else if i = 2 then 100
    else if i = 3 then 7 else if i = 4 then 101 else 0, -1, 0⟩

/-- A memory accepting every write, with nothing in DCCM. -/
def scMem0 : ScMem := ⟨fun _ => true, fun _ => true, fun _ => false, fun _ => 0, 0, false⟩

/-- A hart state holding a word reservation at address 100, ready for SC. -/
def scStSucc : ScState :=
  { intRegs := scRegs0, mem := scMem0, hasLr := true, lrAddr := 100,
    hasException := false, triggerTripped := false, forceAccessFail := false,
    amoIllegalOutsideDccm := false, hasActiveTrigger := false,
    addrTrigHit := fun _ => false, dataTrigHit := fun _ => false,
    toHostValid := false, toHost := 0, maxStoreQueueSize := 0, storeQueue := [],
    exceptionRaised := none }

/-- As `scStSucc` but with no reservation held. -/
def scStNoRes : ScState := { scStSucc with hasLr := false }

/-- As `scStSucc` but with a memory rejecting every write. -/
def scStWriteFail : ScState :=
  { scStSucc with mem := { scMem0 with writeOk := fun _ => false } }

/-- As `scStSucc` but with address 100 configured as the to-host address. -/
def scStToHost : ScState := { scStSucc with toHostValid := true, toHost := 100 }

/-- Witness for C2 (amended), exercising all five branches: successful SC,
failed SC without reservation, SC with failing memory write, misaligned SC,
and SC to the to-host address. -/
theorem sc_w_success_iff_witness :
    ((execSc_w scStSucc 1 2 3).isStop = false
      ∧ (execSc_w scStSucc 1 2 3).state.intRegs.read 1 = 0
      ∧ (execSc_w scStSucc 1 2 3).state.mem.words 100 = 7
      ∧ (execSc_w scStSucc 1 2 3).state.hasException = false)
    ∧ ((execSc_w scStNoRes 1 2 3).isStop = false
      ∧ (execSc_w scStNoRes 1 2 3).state.intRegs.read 1 = 1
      ∧ (execSc_w scStNoRes 1 2 3).state.mem.words = scStNoRes.mem.words
      ∧ (execSc_w scStNoRes 1 2 3).state.hasException = false)
    ∧ ((execSc_w scStWriteFail 1 2 3).isStop = false
      ∧ (execSc_w scStWriteFail 1 2 3).state.hasException = true
      ∧ (execSc_w scStWriteFail 1 2 3).state.exceptionRaised
          = some (ExceptionCause.STORE_ACC_FAULT, 100)
      ∧ (execSc_w scStWriteFail 1 2 3).state.intRegs = scStWriteFail.intRegs
      ∧ (execSc_w scStWriteFail 1 2 3).state.mem.words = scStWriteFail.mem.words)
    ∧ ((execSc_w scStSucc 1 4 3).isStop = false
      ∧ (execSc_w scStSucc 1 4 3).state.hasException = true
      ∧ (execSc_w scStSucc 1 4 3).state.exceptionRaised
          = some (ExceptionCause.STORE_ACC_FAULT, 101)
      ∧ (execSc_w scStSucc 1 4 3).state.intRegs = scStSucc.intRegs
      ∧ (execSc_w scStSucc 1 4 3).state.mem.words = scStSucc.mem.words)
    ∧ ((execSc_w scStToHost 1 2 3).isStop = true
      ∧ (execSc_w scStToHost 1 2 3).state.mem.words 100 = 7
      ∧ (execSc_w scStToHost 1 2 3).state.intRegs = scStToHost.intRegs) :=
  ⟨(sc_w_success_iff scStSucc 1 2 3 100 7 (by decide) rfl rfl rfl rfl (by decide)
      (by decide)).1 rfl rfl rfl (by decide) rfl rfl,
   (sc_w_success_iff scStNoRes 1 2 3 100 7 (by decide) rfl rfl rfl rfl (by decide)
      (by decide)).2.1 (by simp [scStNoRes, scStSucc]) (by decide),
   (sc_w_success_iff scStWriteFail 1 2 3 100 7 (by decide) rfl rfl rfl rfl (by decide)
      (by decide)).2.2.1 rfl rfl (by decide) (Or.inr rfl),
   (sc_w_success_iff scStSucc 1 4 3 101 7 (by decide) rfl rfl rfl rfl (by decide)
      (by decide)).2.2.2.1 (by decide),
   (sc_w_success_iff scStToHost 1 2 3 100 7 (by decide) rfl rfl rfl rfl (by decide)
      (by decide)).2.2.2.2 rfl rfl (by decide) rfl rfl rfl rfl (by decide)⟩

/-- Counterexample to C2 as stated: on `scStToHost` the reservation is held,
the address matches, no trigger trips, the access is aligned and the memory
write succeeds (the stored word is visible), yet `rd` (initially 5) is not
written 0 — the simulation stops on the non-zero to-host store instead. -/
theorem sc_w_claim_counterexample :
    scStToHost.hasLr = true
    ∧ scStToHost.intRegs.read 2 = scStToHost.lrAddr
    ∧ scStToHost.triggerTripped = false
    ∧ scStToHost.hasActiveTrigger = false
    ∧ scStToHost.intRegs.read 2 % 4 = 0
    ∧ (execSc_w scStToHost 1 2 3).state.mem.words 100 = 7
    ∧ (execSc_w scStToHost 1 2 3).state.intRegs.read 1 = 5
    ∧ (execSc_w scStToHost 1 2 3).isStop = true := by
  refine ⟨rfl, by decide, rfl, rfl, by decide, ?_, ?_, ?_⟩ <;> decide

/-! ## Loads (`Core::load`, `Core::misalignedAccessCausesException`) -/

/-- The slice of the external memory interface consumed by loads: sized reads
(which may fail), region classification, idempotency (the source consults the
MRAC CSR and the local-memory map; both live outside the core sources, so the
resulting per-address verdict is an oracle here), and DCCM membership. -/
structure LoadMem where
  read : Nat → Nat → Option Nat
  regionIndex : Nat → Nat
  idempotent : Nat → Bool
  dccm : Nat → Bool

/-- `Core::misalignedAccessCausesException`: a misaligned access raises an
exception when it crosses a memory-region boundary or touches a
non-idempotent byte. -/
def misalignedAccessCausesException (m : LoadMem) (addr accessSize : Nat) : Bool :=
  let addr2 := addr + accessSize - 1
  if m.regionIndex addr ≠ m.regionIndex addr2 then true
  else if !(m.idempotent addr) || !(m.idempotent addr2) then true
  else false

/-- The slice of hart state touched by the load path. -/
structure LoadState where
  intRegs : IntRegs
  mem : LoadMem
  loadAddr : Nat
  loadAddrValid : Bool
  loadQueueEnabled : Bool
  maxLoadQueueSize : Nat
  loadQueue : List LoadInfo
  hasActiveTrigger : Bool
  addrTrigHit : Nat → Bool
  triggerTripped : Bool
  conIoValid : Bool
  conIo : Nat
  conIn : Int
  eaCompatWithBase : Bool
  regionHasLocalDataMem : Nat → Bool
  forceAccessFail : Bool
  hasException : Bool
  exceptionRaised : Option (ExceptionCause × Nat)

/-- `Core::effectiveAndBaseAddrMismatch`: compares the top-4-bit regions of
base and effective address and their local-data-memory attributes. -/
def effectiveAndBaseAddrMismatch (w : Nat) (st : LoadState) (base addr : Nat) : Bool :=
  let baseRegion := base / 2 ^ (w - 4)
  let addrRegion := addr / 2 ^ (w - 4)
  if baseRegion = addrRegion then false
  else st.regionHasLocalDataMem baseRegion != st.regionHasLocalDataMem addrRegion

/-- `Core::removeFromLoadQueue` on the queue list: the last (most recent)
valid entry targeting the register is removed and all earlier valid entries
targeting it are invalidated. -/
def rmLoadQueue (regIx : Nat) : List LoadInfo → List LoadInfo
  | [] => []
  | e :: rest =>
    if e.valid && decide (e.regIx = regIx) then
      if rest.any (fun x => x.valid && decide (x.regIx = regIx)) then
        { e with valid := false } :: rmLoadQueue regIx rest
      else rest
    else e :: rmLoadQueue regIx rest

/-- `Core::removeFromLoadQueue`: a no-op for register 0. -/
def removeFromLoadQueue (st : LoadState) (regIx : Nat) : LoadState :=
  if regIx = 0 then st
  else { st with loadQueue := rmLoadQueue regIx st.loadQueue }

/-- `Core::invalidateInLoadQueue`: invalidate every entry targeting the
register. -/
def invalidateInLoadQueue (st : LoadState) (regIx : Nat) : LoadState :=
  { st with
    loadQueue := st.loadQueue.map fun e =>
      if e.regIx = regIx then { e with valid := false } else e }

/-- `Core::putInLoadQueue`: disabled queues are untouched; DCCM loads only
invalidate the target register's entries; otherwise append, dropping the
oldest entry when full. -/
def putInLoadQueue (st : LoadState) (size addr regIx data : Nat) : LoadState :=
  if !st.loadQueueEnabled then st
  else if st.mem.dccm addr then invalidateInLoadQueue st regIx
  else if st.loadQueue.length ≥ st.maxLoadQueueSize then
    { st with loadQueue := st.loadQueue.drop 1 ++ [⟨size, addr, regIx, data, true⟩] }
  else { st with loadQueue := st.loadQueue ++ [⟨size, addr, regIx, data, true⟩] }

/-- `Core::initiateLoadException`: compensate the load queue (an entry
targeting x0, unless the failure was forced), clear the forced-fail hook, and
raise the exception (the trap machinery records the cause with the faulting
address as info). -/
def initiateLoadException (st : LoadState) (cause : ExceptionCause)
    (addr size : Nat) : LoadState :=
  let st1 := if st.loadQueueEnabled && !st.forceAccessFail
    then putInLoadQueue st size addr 0 0 else st
  { st1 with
    forceAccessFail := false,
    hasException := true,
    exceptionRaised := some (cause, addr) }

/-- The entry sequence of `Core::load`: record the load address for tracing
and do the load-queue maintenance for `rs1`. -/
def loadPre (w : Nat) (st0 : LoadState) (rs1 : Nat) (imm : Int) : LoadState :=
  let base := st0.intRegs.read rs1
  let addr := toUnsigned w ((base : Int) + imm)
  let st := { st0 with loadAddr := addr, loadAddrValid := true }
  if st.loadQueueEnabled then removeFromLoadQueue st rs1 else st

/-- `Core::load<LOAD_TYPE>` embedded from the sources, with
`size = sizeof(LOAD_TYPE)` and `signed` the signedness of `LOAD_TYPE`:
effective address `rs1 + imm` (wrapping); load-queue maintenance (`loadPre`);
address trigger; console-input byte read; effective/base compatibility check;
misaligned exception; memory read with sign- or zero-extension to `w` bits. -/
def load (w : Nat) (st0 : LoadState) (size : Nat) (signed : Bool)
    (rd rs1 : Nat) (imm : Int) : LoadState × Bool :=
  let base := st0.intRegs.read rs1
  let addr := toUnsigned w ((base : Int) + imm)
  let st := loadPre w st0 rs1 imm
  let st1 := if st.hasActiveTrigger && st.addrTrigHit addr
    then { st with triggerTripped := true } else st
  if st.hasActiveTrigger && st1.triggerTripped then (st1, false)
  else if size = 1 && st1.conIoValid && decide (addr = st1.conIo) then
    ({ st1 with intRegs := st1.intRegs.write rd (toUnsigned w st1.conIn) }, true)
  else
    let st2 := if st1.eaCompatWithBase
      then { st1 with
             forceAccessFail :=
               st1.forceAccessFail || effectiveAndBaseAddrMismatch w st1 base addr }
      else st1
    if decide (addr % size ≠ 0) && misalignedAccessCausesException st2.mem addr size then
      (initiateLoadException st2 ExceptionCause.LOAD_ADDR_MISAL addr size, false)
    else
      match (if st2.forceAccessFail then none else st2.mem.read size addr) with
      | some uval =>
        let value := if signed then toUnsigned w (toSigned (8 * size) uval) else uval
        let st3 := if st2.loadQueueEnabled
          then putInLoadQueue st2 size addr rd (st2.intRegs.read rd) else st2
        ({ st3 with intRegs := st3.intRegs.write rd value }, true)
      | none => (initiateLoadException st2 ExceptionCause.LOAD_ACC_FAULT addr size, false)

/-- The queue-maintenance operations only touch the `loadQueue` field; the
following projection lemmas let the load proofs pass through them. -/
@[simp] theorem removeFromLoadQueue_proj (st : LoadState) (r : Nat) :
    (removeFromLoadQueue st r).intRegs = st.intRegs
    ∧ (removeFromLoadQueue st r).mem = st.mem
    ∧ (removeFromLoadQueue st r).forceAccessFail = st.forceAccessFail
    ∧ (removeFromLoadQueue st r).hasException = st.hasException
    ∧ (removeFromLoadQueue st r).exceptionRaised = st.exceptionRaised
    ∧ (removeFromLoadQueue st r).hasActiveTrigger = st.hasActiveTrigger
    ∧ (removeFromLoadQueue st r).addrTrigHit = st.addrTrigHit
    ∧ (removeFromLoadQueue st r).triggerTripped = st.triggerTripped
    ∧ (removeFromLoadQueue st r).conIoValid = st.conIoValid
    ∧ (removeFromLoadQueue st r).conIo = st.conIo
    ∧ (removeFromLoadQueue st r).conIn = st.conIn
    ∧ (removeFromLoadQueue st r).eaCompatWithBase = st.eaCompatWithBase
    ∧ (removeFromLoadQueue st r).regionHasLocalDataMem = st.regionHasLocalDataMem
    ∧ (removeFromLoadQueue st r).loadQueueEnabled = st.loadQueueEnabled := by
  unfold removeFromLoadQueue
  split <;> exact ⟨rfl, rfl, rfl, rfl, rfl, rfl, rfl, rfl, rfl, rfl, rfl, rfl, rfl, rfl⟩

@[simp] theorem putInLoadQueue_proj (st : LoadState) (size addr regIx data : Nat) :
    (putInLoadQueue st size addr regIx data).intRegs = st.intRegs
    ∧ (putInLoadQueue st size addr regIx data).mem = st.mem
    ∧ (putInLoadQueue st size addr regIx data).forceAccessFail = st.forceAccessFail
    ∧ (putInLoadQueue st size addr regIx data).hasException = st.hasException
    ∧ (putInLoadQueue st size addr regIx data).exceptionRaised = st.exceptionRaised
    ∧ (putInLoadQueue st size addr regIx data).triggerTripped = st.triggerTripped
    ∧ (putInLoadQueue st size addr regIx data).loadQueueEnabled = st.loadQueueEnabled := by
  unfold putInLoadQueue invalidateInLoadQueue
  split_ifs <;> exact ⟨rfl, rfl, rfl, rfl, rfl, rfl, rfl⟩

@[simp] theorem loadPre_proj (w : Nat) (st0 : LoadState) (rs1 : Nat) (imm : Int) :
    (loadPre w st0 rs1 imm).intRegs = st0.intRegs
    ∧ (loadPre w st0 rs1 imm).mem = st0.mem
    ∧ (loadPre w st0 rs1 imm).forceAccessFail = st0.forceAccessFail
    ∧ (loadPre w st0 rs1 imm).hasException = st0.hasException
    ∧ (loadPre w st0 rs1 imm).exceptionRaised = st0.exceptionRaised
    ∧ (loadPre w st0 rs1 imm).hasActiveTrigger = st0.hasActiveTrigger
    ∧ (loadPre w st0 rs1 imm).addrTrigHit = st0.addrTrigHit
    ∧ (loadPre w st0 rs1 imm).triggerTripped = st0.triggerTripped
    ∧ (loadPre w st0 rs1 imm).conIoValid = st0.conIoValid
    ∧ (loadPre w st0 rs1 imm).conIo = st0.conIo
    ∧ (loadPre w st0 rs1 imm).conIn = st0.conIn
    ∧ (loadPre w st0 rs1 imm).eaCompatWithBase = st0.eaCompatWithBase
    ∧ (loadPre w st0 rs1 imm).regionHasLocalDataMem = st0.regionHasLocalDataMem
    ∧ (loadPre w st0 rs1 imm).loadQueueEnabled = st0.loadQueueEnabled := by
  unfold loadPre
  dsimp only
  split
  · simp
  · exact ⟨rfl, rfl, rfl, rfl, rfl, rfl, rfl, rfl, rfl, rfl, rfl, rfl, rfl, rfl⟩

@[simp] theorem initiateLoadException_proj (st : LoadState) (cause : ExceptionCause)
    (addr size : Nat) :
    (initiateLoadException st cause addr size).exceptionRaised = some (cause, addr)
    ∧ (initiateLoadException st cause addr size).hasException = true
    ∧ (initiateLoadException st cause addr size).forceAccessFail = false
    ∧ (initiateLoadException st cause addr size).intRegs = st.intRegs
    ∧ (initiateLoadException st cause addr size).mem = st.mem := by
  unfold initiateLoadException
  split <;> simp

set_option maxRecDepth 2000 in
/-- C4 (amended): for an executed load at effective address `rs1 + imm`
(wrapping), with no active trigger and the console-input and
effective/base-compatibility features off: a misaligned address that crosses a
region boundary or touches non-idempotent bytes raises `LOAD_ADDR_MISAL`; a
forced access failure or failing memory read raises `LOAD_ACC_FAULT`;
otherwise the loaded value, sign- or zero-extended to `w` bits, is written to
`rd`. -/
theorem load_cases (w : Nat) (st : LoadState) (size : Nat) (signed : Bool)
    (rd rs1 : Nat) (imm : Int) (a : Nat)
    (hrd : rd ≠ 0)
    (htrig : st.hasActiveTrigger = false)
    (hcon : st.conIoValid = false)
    (heac : st.eaCompatWithBase = false)
    (ha : a = toUnsigned w ((st.intRegs.read rs1 : Int) + imm)) :
    ((a % size ≠ 0) → misalignedAccessCausesException st.mem a size = true →
      (load w st size signed rd rs1 imm).2 = false
      ∧ (load w st size signed rd rs1 imm).1.exceptionRaised
          = some (ExceptionCause.LOAD_ADDR_MISAL, a)
      ∧ (load w st size signed rd rs1 imm).1.hasException = true
      ∧ (load w st size signed rd rs1 imm).1.intRegs = st.intRegs)
    ∧ (¬(a % size ≠ 0 ∧ misalignedAccessCausesException st.mem a size = true) →
        (st.forceAccessFail = true ∨ st.mem.read size a = none) →
      (load w st size signed rd rs1 imm).2 = false
      ∧ (load w st size signed rd rs1 imm).1.exceptionRaised
          = some (ExceptionCause.LOAD_ACC_FAULT, a)
      ∧ (load w st size signed rd rs1 imm).1.hasException = true
      ∧ (load w st size signed rd rs1 imm).1.intRegs = st.intRegs)
    ∧ (∀ uval, ¬(a % size ≠ 0 ∧ misalignedAccessCausesException st.mem a size = true) →
        st.forceAccessFail = false → st.mem.read size a = some uval →
      (load w st size signed rd rs1 imm).2 = true
      ∧ (load w st size signed rd rs1 imm).1.intRegs.read rd
          = (if signed then toUnsigned w (toSigned (8 * size) uval) else uval)
      ∧ (load w st size signed rd rs1 imm).1.hasException = st.hasException
      ∧ (load w st size signed rd rs1 imm).1.exceptionRaised = st.exceptionRaised) := by
  subst ha
  refine ⟨?_, ?_, ?_⟩
  · intro hm hcx
    simp [load, htrig, hcon, heac, hm, hcx]
  · intro hnm hfail
    rcases hfail with hff | hrd0
    · simp [load, htrig, hcon, heac, hff]
      rw [if_neg hnm]
      simp
    · by_cases hffb : st.forceAccessFail = true
      · simp [load, htrig, hcon, heac, hffb]
        rw [if_neg hnm]
        simp
      · simp [load, htrig, hcon, heac, Bool.of_not_eq_true hffb, hrd0]
        rw [if_neg hnm]
        simp
  · intro uval hnm hff hread
    cases hlq : st.loadQueueEnabled <;>
      (simp [load, htrig, hcon, heac, hff, hread, hlq,
         IntRegs.read_write_self _ _ _ hrd]
       rw [if_neg hnm]
       simp [IntRegs.read_write_self _ _ _ hrd])

/-- A load memory readable only at address 100 (value 200), with a region
boundary between addresses 103 and 104. -/
def ldMem0 : LoadMem :=
  ⟨fun _ a => if a = 100 then some 200 else none,
   fun a => if a ≤ 103 then 0 else 1,
   fun _ => true, fun _ => false⟩

/-- A hart state for the load scenarios (`x2 = 100`). -/
def ldSt0 : LoadState :=
  { intRegs := scRegs0, mem := ldMem0, loadAddr := 0, loadAddrValid := false,
    loadQueueEnabled := false, maxLoadQueueSize := 0, loadQueue := [],
    hasActiveTrigger := false, addrTrigHit := fun _ => false,
    triggerTripped := false, conIoValid := false, conIo := 0, conIn := 0,
    eaCompatWithBase := false, regionHasLocalDataMem := fun _ => false,
    forceAccessFail := false, hasException := false, exceptionRaised := none }

/-- Witness for C4 (amended): `lw x1, 2(x2)` at 102 crosses the region
boundary and raises `LOAD_ADDR_MISAL`; `lw x1, 4(x2)` at 104 fails the memory
read and raises `LOAD_ACC_FAULT`; `lw x1, 0(x2)` at 100 succeeds and writes
the zero-extended value 200. -/
theorem load_cases_witness :
    ((load 32 ldSt0 4 false 1 2 2).2 = false
      ∧ (load 32 ldSt0 4 false 1 2 2).1.exceptionRaised
          = some (ExceptionCause.LOAD_ADDR_MISAL, 102)
      ∧ (load 32 ldSt0 4 false 1 2 2).1.hasException = true
      ∧ (load 32 ldSt0 4 false 1 2 2).1.intRegs = ldSt0.intRegs)
    ∧ ((load 32 ldSt0 4 false 1 2 4).2 = false
      ∧ (load 32 ldSt0 4 false 1 2 4).1.exceptionRaised
          = some (ExceptionCause.LOAD_ACC_FAULT, 104)
      ∧ (load 32 ldSt0 4 false 1 2 4).1.hasException = true
      ∧ (load 32 ldSt0 4 false 1 2 4).1.intRegs = ldSt0.intRegs)
    ∧ ((load 32 ldSt0 4 false 1 2 0).2 = true
      ∧ (load 32 ldSt0 4 false 1 2 0).1.intRegs.read 1
          = (if false then toUnsigned 32 (toSigned (8 * 4) 200) else 200)
      ∧ (load 32 ldSt0 4 false 1 2 0).1.hasException = ldSt0.hasException
      ∧ (load 32 ldSt0 4 false 1 2 0).1.exceptionRaised = ldSt0.exceptionRaised) :=
  ⟨(load_cases 32 ldSt0 4 false 1 2 2 102 (by decide) rfl rfl rfl (by decide)).1
      (by decide) (by decide),
   (load_cases 32 ldSt0 4 false 1 2 4 104 (by decide) rfl rfl rfl (by decide)).2.1
      (by decide) (Or.inr (by decide)),
   (load_cases 32 ldSt0 4 false 1 2 0 100 (by decide) rfl rfl rfl (by decide)).2.2
      200 (by decide) rfl (by decide)⟩

/-- As `ldSt0` but with the console-input address configured at 100 and the
forced-access-fail hook armed. -/
def ldStCon : LoadState :=
  { ldSt0 with conIoValid := true, conIo := 100, conIn := 65, forceAccessFail := true }

/-- Counterexample to C4 as stated: a byte load from the console-input address
with the forced-access-fail hook set does not raise `LOAD_ACC_FAULT` — it
succeeds and writes the console byte (65) to `rd`. -/
theorem load_forced_fail_counterexample :
    ldStCon.forceAccessFail = true
    ∧ (load 32 ldStCon 1 false 1 2 0).2 = true
    ∧ (load 32 ldStCon 1 false 1 2 0).1.exceptionRaised = none
    ∧ (load 32 ldStCon 1 false 1 2 0).1.intRegs.read 1 = 65 := by
  refine ⟨rfl, ?_, ?_, ?_⟩ <;> decide

/-! ## Store-exception replay (`Core::applyStoreException`, `Core::setPendingNmi`) -/

/-- Non-maskable-interrupt causes. -/
inductive NmiCause
  | STORE_EXCEPTION
  | LOAD_EXCEPTION
  | UNKNOWN
deriving DecidableEq, Repr

/-- The slice of hart state touched by `applyStoreException`.  The MDSEAC CSR,
its lock, and the CSR-write record are modelled from the spec contract (the
CSR file class is not under the sources): `poke` sets the value, `lockMdseac`
the lock, `recordCsrWrite` the written flag. -/
structure StExcState where
  mdseac : Nat
  mdseacLocked : Bool
  mdseacWritten : Bool
  nmiPending : Bool
  nmiCause : NmiCause
  dcsrNmip : Bool
  dcsrWritten : Bool
  storeErrorRollback : Bool
  storeQueue : List StoreInfo
  memBytes : Nat → Nat

/-- `Core::setPendingNmi` from the sources: the first NMI latches the cause
(sticky); the pending flag is set; the DCSR nmip bit is poked and recorded
(DCSR is implemented, so the peek always succeeds). -/
def setPendingNmi (st0 : StExcState) (cause : NmiCause) : StExcState :=
  let st1 := if !st0.nmiPending then { st0 with nmiCause := cause } else st0
  { st1 with nmiPending := true, dcsrNmip := true, dcsrWritten := true }

/-- A byte-wise poke of `count` bytes of `data` (little-endian) starting at
`startA`, as performed by the undo/replay loops through `pokeMemory`. -/
def pokeRange (mem : Nat → Nat) (startA data count : Nat) : Nat → Nat :=
  fun a => if startA ≤ a ∧ a < startA + count
    then data / 256 ^ (a - startA) % 256 else mem a

/-- Replay of a younger store over the undone range `[undoBegin, undoEnd)`. -/
def replayEntry (mem : Nat → Nat) (e : StoreInfo) (undoBegin undoEnd : Nat) :
    Nat → Nat :=
  fun a => if e.addr ≤ a ∧ a < e.addr + e.size ∧ undoBegin ≤ a ∧ a < undoEnd
    then e.newData / 256 ^ (a - e.addr) % 256 else mem a

/-- The undo/replay loop of `applyStoreException`: before the hit, entries are
scanned; the hit entry's previous bytes are restored from the faulting address
up to the next 8-byte boundary (the entry is removed, or trimmed to the bytes
past the boundary); younger entries replay their bytes over the undone range.
Returns the rewritten queue, the memory, and the final `undoEnd`. -/
def undoLoop (addr : Nat) :
    List StoreInfo → (Nat → Nat) → Bool → Nat → List StoreInfo × (Nat → Nat) × Nat
  | [], mem, _, ue => ([], mem, ue)
  | e :: rest, mem, true, ue =>
      let mem2 := replayEntry mem e addr ue
      let r := undoLoop addr rest mem2 true ue
      (e :: r.1, r.2)
  | e :: rest, mem, false, ue =>
      if e.addr ≤ addr ∧ addr < e.addr + e.size then
        let offset := addr - e.addr
        let total := e.size - offset
        let bnd := 8 - addr % 8
        if total ≤ bnd then
          let mem2 := pokeRange mem addr (e.prevData / 256 ^ offset) total
          undoLoop addr rest mem2 true (addr + total)
        else
          let mem2 := pokeRange mem addr (e.prevData / 256 ^ offset) bnd
          let trimmed : StoreInfo :=
            ⟨e.size - (offset + bnd), addr + bnd,
             e.newData / 256 ^ (offset + bnd), e.prevData / 256 ^ (offset + bnd)⟩
          let r := undoLoop addr rest mem2 true (addr + bnd)
          (trimmed :: r.1, r.2)
      else
        let r := undoLoop addr rest mem false ue
        (e :: r.1, r.2)

/-- The state rewrite performed by the undo/replay phase. -/
def applyStoreExcUndo (st : StExcState) (addr : Nat) : StExcState :=
  { st with
    storeQueue := (undoLoop addr st.storeQueue st.memBytes false 0).1,
    memBytes := (undoLoop addr st.storeQueue st.memBytes false 0).2.1 }

/-- `Core::applyStoreException` from the sources: when MDSEAC is not already
locked, poke it with the faulting address, lock it and set the store-exception
NMI pending; record the MDSEAC write unconditionally; when store-error
rollback is disabled report one match and succeed; otherwise succeed exactly
when one store-queue entry's byte range contains the address (undoing and
replaying as needed), and fail otherwise.  Returns (state, matches, ok). -/
def applyStoreException (st0 : StExcState) (addr : Nat) : StExcState × Nat × Bool :=
  let prevLocked := st0.mdseacLocked
  let st1 := if !prevLocked then
      setPendingNmi { st0 with mdseac := addr, mdseacLocked := true }
        NmiCause.STORE_EXCEPTION
    else st0
  let st2 := { st1 with mdseacWritten := true }
  if !st2.storeErrorRollback then (st2, 1, true)
  else
    let cnt := (st2.storeQueue.filter fun e =>
      decide (e.addr ≤ addr ∧ addr < e.addr + e.size)).length
    if cnt ≠ 1 then (st2, cnt, false)
    else (applyStoreExcUndo st2 addr, 1, true)

/-- C8: every `applyStoreException(addr)` records MDSEAC as written and leaves
it locked; when it was not already locked, MDSEAC is latched to `addr` and a
store-exception NMI is set pending; with rollback disabled the call reports
one match and succeeds; with rollback enabled it succeeds exactly when one
store-queue entry's byte range contains `addr`, reporting the count. -/
theorem apply_store_exception_cases (st : StExcState) (addr : Nat) :
    ((applyStoreException st addr).1.mdseacWritten = true
      ∧ (applyStoreException st addr).1.mdseacLocked = true)
    ∧ (st.mdseacLocked = false →
        (applyStoreException st addr).1.mdseac = addr
        ∧ (applyStoreException st addr).1.nmiPending = true
        ∧ (st.nmiPending = false →
            (applyStoreException st addr).1.nmiCause = NmiCause.STORE_EXCEPTION))
    ∧ (st.storeErrorRollback = false →
        (applyStoreException st addr).2.1 = 1
        ∧ (applyStoreException st addr).2.2 = true)
    ∧ (st.storeErrorRollback = true →
        ((applyStoreException st addr).2.2 = true ↔
          (st.storeQueue.filter fun e =>
            decide (e.addr ≤ addr ∧ addr < e.addr + e.size)).length = 1)
        ∧ (applyStoreException st addr).2.1
            = (st.storeQueue.filter fun e =>
                decide (e.addr ≤ addr ∧ addr < e.addr + e.size)).length) := by
  refine ⟨?_, ?_, ?_, ?_⟩
  · cases hlk : st.mdseacLocked <;>
      cases hnp : st.nmiPending <;>
      cases hrb : st.storeErrorRollback <;>
      simp [applyStoreException, setPendingNmi, applyStoreExcUndo, hlk, hnp, hrb] <;>
      split_ifs <;> simp
  · intro hlk
    cases hnp : st.nmiPending <;>
      cases hrb : st.storeErrorRollback <;>
      simp [applyStoreException, setPendingNmi, applyStoreExcUndo, hlk, hnp, hrb] <;>
      split_ifs <;> simp
  · intro hrb
    cases hlk : st.mdseacLocked <;>
      cases hnp : st.nmiPending <;>
      simp [applyStoreException, setPendingNmi, hlk, hnp, hrb]
  · intro hrb
    cases hlk : st.mdseacLocked <;>
      cases hnp : st.nmiPending <;>
      simp [applyStoreException, setPendingNmi, hlk, hnp, hrb] <;>
      split_ifs <;> simp_all

/-- A fresh state: MDSEAC unlocked, no NMI pending, rollback disabled. -/
def stExc0 : StExcState :=
  { mdseac := 0, mdseacLocked := false, mdseacWritten := false,
    nmiPending := false, nmiCause := NmiCause.UNKNOWN, dcsrNmip := false,
    dcsrWritten := false, storeErrorRollback := false, storeQueue := [],
    memBytes := fun _ => 0 }

/-- As `stExc0` but with rollback enabled and one queued 4-byte store at
address 100. -/
def stExcRb : StExcState :=
  { stExc0 with storeErrorRollback := true, storeQueue := [⟨4, 100, 7, 0⟩] }

/-- Witness for C8: on a fresh state the call latches MDSEAC to 100, locks it,
sets the store-exception NMI pending, records the write, and (rollback
disabled) reports one match and succeeds; with rollback enabled, address 102
inside the single queued store succeeds while address 200 fails. -/
theorem apply_store_exception_cases_witness :
    ((applyStoreException stExc0 100).1.mdseacWritten = true
      ∧ (applyStoreException stExc0 100).1.mdseacLocked = true)
    ∧ ((applyStoreException stExc0 100).1.mdseac = 100
      ∧ (applyStoreException stExc0 100).1.nmiPending = true
      ∧ (applyStoreException stExc0 100).1.nmiCause = NmiCause.STORE_EXCEPTION)
    ∧ ((applyStoreException stExc0 100).2.1 = 1
      ∧ (applyStoreException stExc0 100).2.2 = true)
    ∧ (applyStoreException stExcRb 102).2.2 = true
    ∧ (applyStoreException stExcRb 200).2.2 = false := by
  refine ⟨(apply_store_exception_cases stExc0 100).1,
    ⟨((apply_store_exception_cases stExc0 100).2.1 rfl).1,
     ((apply_store_exception_cases stExc0 100).2.1 rfl).2.1,
     ((apply_store_exception_cases stExc0 100).2.1 rfl).2.2 rfl⟩,
    (apply_store_exception_cases stExc0 100).2.2.1 rfl, ?_, ?_⟩
  · exact (((apply_store_exception_cases stExcRb 102).2.2.2 rfl).1).mpr (by decide)
  · have hiff := ((apply_store_exception_cases stExcRb 200).2.2.2 rfl).1
    cases hc : (applyStoreException stExcRb 200).2.2
    · rfl
    · exact absurd (hiff.mp hc) (by decide)

end SwervISS
